import Mathlib

/-!
Verification of the text-adventure runtime in `main.py`.

The development shallowly embeds the core of the program: the response
recovery function `safe_json_extract`, the state mutator
`GameEngine.apply_state_changes`, the end-condition evaluator
`GameEngine.check_end_conditions`, the prompt builder
`GameEngine.build_prompt`, and the built-in command handling of
`GameEngine.handle_command` (save / load / dispatch to the backend).

Python dictionaries holding JSON data are modelled by the inductive
type `Json` (association lists in insertion order, looked up first
match).  The game state dictionary is modelled by the structure
`GameState`, which types the recognized keys exactly as the program
maintains them (strings, a string list inventory, boolean flags,
integer hp and turns) and keeps every unrecognized key verbatim in
`extra`.  `json.loads` is modelled by the executable recursive-descent
function `jsonLoads` on the JSON fragment the program exchanges
(null, booleans, integers, strings with the basic escapes, arrays,
objects); floats, \u escapes and the NaN/Infinity literals are outside
the modelled fragment and parse as failures.  Machine-level behaviour
(files, the subprocess call to the backend) is represented by explicit
values: the save file is the JSON value written to it.
-/

/-- JSON values as exchanged between the program and the backend.
Objects are association lists in insertion order, as Python dicts. -/
inductive Json where
  | null : Json
  | bool (b : Bool) : Json
  | int (n : Int) : Json
  | str (s : String) : Json
  | arr (xs : List Json) : Json
  | obj (kvs : List (String × Json)) : Json

/-- The double-quote character. -/
def quoteC : Char := Char.ofNat 34

/-- The backslash character. -/
def bslC : Char := Char.ofNat 92

/-- The opening-brace character. -/
def lbraceC : Char := Char.ofNat 123

/-- The closing-brace character. -/
def rbraceC : Char := Char.ofNat 125

/-- Whitespace as recognized by the Python json module. -/
def isJsonWs (c : Char) : Bool :=
  c == ' ' || c == '\t' || c == '\n' || c == '\r'

/-- Whitespace stripped by Python str.strip (ASCII fragment). -/
def isPyWs (c : Char) : Bool :=
  c == ' ' || c == '\t' || c == '\n' || c == '\r' || c == Char.ofNat 11 || c == Char.ofNat 12

/-- Models Python str.strip(): drop whitespace at both ends. -/
def pyStrip (s : String) : String :=
  String.mk (((s.data.dropWhile isPyWs).reverse.dropWhile isPyWs).reverse)

/-- Lower-case one character (ASCII fragment of Python str.lower). -/
def charLower (c : Char) : Char :=
  if 'A' ≤ c && c ≤ 'Z' then Char.ofNat (c.toNat + 32) else c

/-- Models Python str.lower() (ASCII fragment). -/
def pyLower (s : String) : String := String.mk (s.data.map charLower)

/-- Index of the first occurrence of a character in a list, if any. -/
def findIdx : List Char → Char → Option Nat
  | [], _ => none
  | x :: xs, c => if x == c then some 0 else (findIdx xs c).map (· + 1)

/-- Index of the last occurrence of a character in a list, if any. -/
def lastIdx : List Char → Char → Option Nat
  | [], _ => none
  | x :: xs, c =>
    match lastIdx xs c with
    | some n => some (n + 1)
    | none => if x == c then some 0 else none

/-- Models Python str.find for a single character: index or -1. -/
def pyFind (s : String) (c : Char) : Int :=
  match findIdx s.data c with
  | some n => (n : Int)
  | none => -1

/-- Models Python str.rfind for a single character: index or -1. -/
def pyRfind (s : String) (c : Char) : Int :=
  match lastIdx s.data c with
  | some n => (n : Int)
  | none => -1

/-- Models Python slicing s[a:b] for nonnegative indices, the only
case the program uses. -/
def pySlice (s : String) (a b : Int) : String :=
  String.mk ((s.data.drop a.toNat).take (b.toNat - a.toNat))

/-- Tests whether the first list is an initial segment of the second;
recursion is on the needle so that the test reduces even when the tail
of the haystack is symbolic. -/
def startsAux (needle : List Char) : List Char → Bool :=
  match needle with
  | [] => fun _ => true
  | q :: qs => fun cs =>
    match cs with
    | [] => false
    | c :: rest => c == q && startsAux qs rest

/-- Models Python str.startswith. -/
def strStarts (s pre : String) : Bool := startsAux pre.data s.data

/-- Substring after the first colon; models atom.split(":", 1)[1] for
atoms that contain a colon. -/
def afterFirstColon (s : String) : String :=
  String.mk ((s.data.dropWhile (fun c => !(c == ':'))).drop 1)

/-- Accumulate a decimal value over a digit list. -/
def digitsVal : List Char → Nat → Nat
  | [], acc => acc
  | d :: ds, acc => digitsVal ds (acc * 10 + (d.toNat - 48))

/-- Digit-run scanner for Python int(): digits with single underscores
allowed between digits.  The Bool records whether the previous
character was a digit. -/
def intDigits : List Char → Nat → Bool → Option Nat
  | [], acc, prev => if prev then some acc else none
  | c :: cs, acc, prev =>
    if c.isDigit then intDigits cs (acc * 10 + (c.toNat - 48)) true
    else if c == '_' && prev then intDigits cs acc false
    else none

/-- Models Python int(str) on the ASCII fragment: surrounding
whitespace, one optional sign, decimal digits with underscore
grouping; anything else fails (ValueError). -/
def parseIntPy (s : String) : Option Int :=
  match (pyStrip s).data with
  | [] => none
  | c :: cs =>
    if c == '-' then (intDigits cs 0 false).map (fun n => -(n : Int))
    else if c == '+' then (intDigits cs 0 false).map (fun n => (n : Int))
    else (intDigits (c :: cs) 0 false).map (fun n => (n : Int))

/-- Drop JSON whitespace. -/
def skipWs (cs : List Char) : List Char := cs.dropWhile isJsonWs

/-- Insert a key into an association list with Python dict semantics:
update the first occurrence in place, otherwise append. -/
def upsert {α : Type} : List (String × α) → String → α → List (String × α)
  | [], k, v => [(k, v)]
  | (k', v') :: rest, k, v =>
    if k' == k then (k', v) :: rest else (k', v') :: upsert rest k v

/-- First-match lookup in an association list (Python dict get). -/
def lookupStr {α : Type} : List (String × α) → String → Option α
  | [], _ => none
  | (k', v) :: rest, k => if k' == k then some v else lookupStr rest k

/-- Scan the body of a JSON string literal after the opening quote:
plain characters and the basic escapes; raw control characters are
rejected as in the json module's strict mode. -/
def parseStrChars : Nat → List Char → List Char → Option (String × List Char)
  | 0, _, _ => none
  | _ + 1, [], _ => none
  | fuel + 1, c :: rest, acc =>
    if c == quoteC then some (String.mk acc.reverse, rest)
    else if c == bslC then
      match rest with
      | [] => none
      | e :: rest2 =>
        if e == quoteC then parseStrChars fuel rest2 (quoteC :: acc)
        else if e == bslC then parseStrChars fuel rest2 (bslC :: acc)
        else if e == '/' then parseStrChars fuel rest2 ('/' :: acc)
        else if e == 'n' then parseStrChars fuel rest2 ('\n' :: acc)
        else if e == 't' then parseStrChars fuel rest2 ('\t' :: acc)
        else if e == 'r' then parseStrChars fuel rest2 ('\r' :: acc)
        else if e == 'b' then parseStrChars fuel rest2 (Char.ofNat 8 :: acc)
        else if e == 'f' then parseStrChars fuel rest2 (Char.ofNat 12 :: acc)
        else none
    else if c.toNat < 32 then none
    else parseStrChars fuel rest (c :: acc)

/-- Scan a JSON number at the head of the input.  Integers only; a
fractional or exponent part is left in the remainder and makes the
enclosing parse fail, which matches the modelled fragment. -/
def parseNum (cs : List Char) : Option (Json × List Char) :=
  let signed : Bool × List Char :=
    match cs with
    | c :: rest => if c == '-' then (true, rest) else (false, cs)
    | [] => (false, cs)
  match signed with
  | (neg, cs1) =>
    match cs1 with
    | [] => none
    | d :: rest =>
      if d == '0' then some (Json.int 0, rest)
      else if d.isDigit then
        let ds := cs1.takeWhile Char.isDigit
        let rest2 := cs1.dropWhile Char.isDigit
        let n : Int := Int.ofNat (digitsVal ds 0)
        some (Json.int (if neg then -n else n), rest2)
      else none

/-- Mode of the recursive-descent scanner: a value, the element loop
of an array, or the member loop of an object. -/
inductive PMode where
  | val : PMode
  | arrLoop (acc : List Json) : PMode
  | objLoop (acc : List (String × Json)) : PMode

/-- Fuel-indexed recursive-descent scanner for the modelled JSON
fragment.  Returns the value and the unconsumed remainder. -/
def parseF : Nat → PMode → List Char → Option (Json × List Char)
  | 0, _, _ => none
  | fuel + 1, PMode.val, cs0 =>
    match skipWs cs0 with
    | [] => none
    | c :: rest =>
      if c == lbraceC then
        match skipWs rest with
        | [] => none
        | d :: r2 => if d == rbraceC then some (Json.obj [], r2)
                     else parseF fuel (PMode.objLoop []) (d :: r2)
      else if c == '[' then
        match skipWs rest with
        | [] => none
        | d :: r2 => if d == ']' then some (Json.arr [], r2)
                     else parseF fuel (PMode.arrLoop []) (d :: r2)
      else if c == quoteC then
        match parseStrChars (rest.length + 1) rest [] with
        | some (s, r) => some (Json.str s, r)
        | none => none
      else if c == 't' then
        match c :: rest with
        | 't' :: 'r' :: 'u' :: 'e' :: r => some (Json.bool true, r)
        | _ => none
      else if c == 'f' then
        match c :: rest with
        | 'f' :: 'a' :: 'l' :: 's' :: 'e' :: r => some (Json.bool false, r)
        | _ => none
      else if c == 'n' then
        match c :: rest with
        | 'n' :: 'u' :: 'l' :: 'l' :: r => some (Json.null, r)
        | _ => none
      else if c == '-' || c.isDigit then parseNum (c :: rest)
      else none
  | fuel + 1, PMode.arrLoop acc, cs0 =>
    match parseF fuel PMode.val cs0 with
    | none => none
    | some (v, rest) =>
      match skipWs rest with
      | ',' :: r2 => parseF fuel (PMode.arrLoop (acc ++ [v])) r2
      | ']' :: r2 => some (Json.arr (acc ++ [v]), r2)
      | _ => none
  | fuel + 1, PMode.objLoop acc, cs0 =>
    match skipWs cs0 with
    | c :: rest =>
      if c == quoteC then
        match parseStrChars (rest.length + 1) rest [] with
        | some (k, r) =>
          match skipWs r with
          | ':' :: r2 =>
            match parseF fuel PMode.val r2 with
            | some (v, r3) =>
              match skipWs r3 with
              | ',' :: r5 => parseF fuel (PMode.objLoop (upsert acc k v)) r5
              | d :: r5 => if d == rbraceC then some (Json.obj (upsert acc k v), r5) else none
              | [] => none
            | none => none
          | _ => none
        | none => none
      else none
    | [] => none

/-- Models json.loads on the modelled fragment: parse one value and
require only whitespace after it; any failure is the ValueError the
program catches. -/
def jsonLoads (s : String) : Option Json :=
  match parseF (2 * s.length + 4) PMode.val s.data with
  | some (j, rest) => if (skipWs rest).isEmpty then some j else none
  | none => none

/-- The fallback object safe_json_extract returns when every parse
attempt fails. -/
def fallbackJson : Json :=
  Json.obj [("narration", Json.str "Invalid GM response."),
            ("state_change", Json.arr [])]

/-- Models safe_json_extract: parse the whole text; on failure take
the substring from the first opening brace to the last closing brace
inclusive and parse that; on failure return the fallback object.  The
program compares end with -1 although end is rfind + 1 and hence never
-1; the model reproduces that check verbatim. -/
def safe_json_extract (text : String) : Json :=
  match jsonLoads text with
  | some j => j
  | none =>
    let start := pyFind text lbraceC
    let stop := pyRfind text rbraceC + 1
    if start ≠ -1 ∧ stop ≠ -1 then
      match jsonLoads (pySlice text start stop) with
      | some j => j
      | none => fallbackJson
    else fallbackJson

/-- The brace-delimited substring safe_json_extract retries on: from
the first opening brace to the last closing brace inclusive. -/
def braceSlice (text : String) : String :=
  pySlice text (pyFind text lbraceC) (pyRfind text rbraceC + 1)

/-- The game state dictionary, typed per the data model the program
maintains: the five recognized keys, each possibly absent, and every
unrecognized key of the initial state kept verbatim in extra. -/
structure GameState where
  location : Option String
  inventory : Option (List String)
  flags : Option (List (String × Bool))
  hp : Option Int
  turns : Option Int
  extra : List (String × Json)

/-- A state with no keys at all. -/
def emptyState : GameState :=
  { location := none, inventory := none, flags := none,
    hp := none, turns := none, extra := [] }

/-- Truthiness of flags.get(f): true exactly when the flag is present
and true (absent gives None, which is falsy). -/
def flagsGet (l : List (String × Bool)) (k : String) : Bool :=
  (lookupStr l k).getD false

/-- One iteration of the loop body of apply_state_changes: dispatch on
the atom's kind by string prefix test, silently keeping the state
unchanged for unrecognized atoms. -/
def applyAtom (s : GameState) (atom : String) : GameState :=
  if strStarts atom "move_to:" then
    { s with location := some (pyStrip (afterFirstColon atom)) }
  else if strStarts atom "add_item:" then
    let item := pyStrip (afterFirstColon atom)
    let inv := s.inventory.getD []
    if item ∈ inv then { s with inventory := some inv }
    else { s with inventory := some (inv ++ [item]) }
  else if strStarts atom "remove_item:" then
    let item := pyStrip (afterFirstColon atom)
    match s.inventory with
    | some inv => if item ∈ inv then { s with inventory := some (inv.erase item) } else s
    | none => s
  else if strStarts atom "set_flag:" then
    let flag := pyStrip (afterFirstColon atom)
    { s with flags := some (upsert (s.flags.getD []) flag true) }
  else if strStarts atom "hp_delta:" then
    let delta := (parseIntPy (afterFirstColon atom)).getD 0
    let hp1 := s.hp.getD 0 + delta
    let s1 := { s with hp := some hp1 }
    if hp1 ≤ 0 then { s1 with flags := some (upsert (s1.flags.getD []) "hp_zero" true) }
    else s1
  else s

/-- Models GameEngine.apply_state_changes: process the atoms in order,
then unconditionally increment turns by one. -/
def apply_state_changes (s : GameState) (changes : List String) : GameState :=
  let s1 := changes.foldl applyAtom s
  { s1 with turns := some (s1.turns.getD 0 + 1) }

/-- The END_CONDITIONS entry of the rules, with the defaults the
program supplies folded in: absent flag lists read as empty, absent
MAX_TURNS reads as the infinite float bound, modelled as none. -/
structure EndConditions where
  winAllFlags : List String
  loseAnyFlags : List String
  maxTurns : Option Int

/-- Models GameEngine.check_end_conditions: WIN if every flag of
WIN_ALL_FLAGS is truthy, else LOSE if any flag of LOSE_ANY_FLAGS is
truthy, else the turn bound, else nothing; the returned strings are
the display messages of the program. -/
def check_end_conditions (endc : EndConditions) (s : GameState) : Option String :=
  let flags := s.flags.getD []
  if endc.winAllFlags.all (fun f => flagsGet flags f) then some "You won!"
  else if endc.loseAnyFlags.any (fun f => flagsGet flags f) then some " You lost!"
  else if (match endc.maxTurns with
           | some m => decide (s.turns.getD 0 ≥ m)
           | none => false) then some " Max turns exceeded!"
  else none

/-- The keys of the state dictionary the engine recognizes. -/
def recognizedKey (k : String) : Bool :=
  k == "location" || k == "inventory" || k == "flags" || k == "hp" || k == "turns"

/-- The JSON object save_json writes for the state: every present
recognized key with its value, then the unrecognized keys verbatim. -/
def stateToJson (s : GameState) : Json :=
  Json.obj (
    (match s.location with | some l => [("location", Json.str l)] | none => []) ++
    (match s.inventory with | some inv => [("inventory", Json.arr (inv.map Json.str))] | none => []) ++
    (match s.flags with | some fs => [("flags", Json.obj (fs.map (fun kv => (kv.1, Json.bool kv.2))))] | none => []) ++
    (match s.hp with | some h => [("hp", Json.int h)] | none => []) ++
    (match s.turns with | some t => [("turns", Json.int t)] | none => []) ++
    s.extra)

/-- String content of a JSON value, when it is a string. -/
def asStr : Json → Option String
  | Json.str s => some s
  | _ => none

/-- Integer content of a JSON value, when it is an integer. -/
def asInt : Json → Option Int
  | Json.int n => some n
  | _ => none

/-- Decode a list of JSON strings. -/
def strList : List Json → Option (List String)
  | [] => some []
  | Json.str s :: rest => (strList rest).map (fun l => s :: l)
  | _ => none

/-- Decode a JSON array of strings. -/
def asStrList : Json → Option (List String)
  | Json.arr xs => strList xs
  | _ => none

/-- Decode an association list of JSON booleans. -/
def boolPairs : List (String × Json) → Option (List (String × Bool))
  | [] => some []
  | (k, Json.bool b) :: rest => (boolPairs rest).map (fun l => (k, b) :: l)
  | _ => none

/-- Decode a JSON object of booleans, as the flags dictionary. -/
def asFlags : Json → Option (List (String × Bool))
  | Json.obj kvs => boolPairs kvs
  | _ => none

/-- Read a saved state dictionary back into the typed state, per the
data model: recognized keys are decoded at their documented types,
every other key is kept verbatim.  Models the dict produced by
load_json for a file written by save_json. -/
def jsonToState (j : Json) : GameState :=
  match j with
  | Json.obj kvs =>
    { location := (lookupStr kvs "location").bind asStr
      inventory := (lookupStr kvs "inventory").bind asStrList
      flags := (lookupStr kvs "flags").bind asFlags
      hp := (lookupStr kvs "hp").bind asInt
      turns := (lookupStr kvs "turns").bind asInt
      extra := kvs.filter (fun kv => !(recognizedKey kv.1)) }
  | _ => emptyState

/-- The built-in command names handle_command intercepts. -/
def isBuiltin (c : String) : Bool :=
  c == "help" || c == "inventory" || c == "save" || c == "load" || c == "quit"

/-- State and save-file effect of the built-in commands of
handle_command: the command is lowercased first; save overwrites the
save file wholesale with the serialized state; load replaces the state
wholesale from the save file when one exists and is a no-op otherwise;
help, inventory and quit only display.  The pair is (state, save
file). -/
def handle_builtin (st : GameState) (saveFile : Option Json) (cmd : String) :
    GameState × Option Json :=
  let c := pyLower cmd
  if c == "save" then (st, some (stateToJson st))
  else if c == "load" then
    match saveFile with
    | some j => (jsonToState j, saveFile)
    | none => (st, saveFile)
  else (st, saveFile)

/-- Models parsed.get("state_change", []) for responses within the
data model (a list of string atoms); anything else reads as the empty
batch. -/
def getStateChange (j : Json) : List String :=
  match j with
  | Json.obj kvs =>
    match lookupStr kvs "state_change" with
    | some v => (asStrList v).getD []
    | none => []
  | _ => []

/-- Lowercase hexadecimal digit. -/
def hexDigit (n : Nat) : Char :=
  if n < 10 then Char.ofNat (48 + n) else Char.ofNat (87 + n)

/-- Four-digit lowercase hexadecimal rendering, as in a JSON escape. -/
def hex4 (n : Nat) : String :=
  String.mk [hexDigit (n / 4096 % 16), hexDigit (n / 256 % 16),
             hexDigit (n / 16 % 16), hexDigit (n % 16)]

/-- Escape one character as json.dumps does with its default
ensure_ascii=True: the short escapes, then numeric escapes for the
remaining control characters and for everything beyond ASCII,
including surrogate pairs for astral characters. -/
def escChar (c : Char) : String :=
  if c == quoteC then String.mk [bslC, quoteC]
  else if c == bslC then String.mk [bslC, bslC]
  else if c == '\n' then String.mk [bslC, 'n']
  else if c == '\t' then String.mk [bslC, 't']
  else if c == '\r' then String.mk [bslC, 'r']
  else if c == Char.ofNat 8 then String.mk [bslC, 'b']
  else if c == Char.ofNat 12 then String.mk [bslC, 'f']
  else if c.toNat < 32 || c.toNat ≥ 127 then
    if c.toNat ≥ 65536 then
      let n := c.toNat - 65536
      String.mk [bslC, 'u'] ++ hex4 (55296 + n / 1024) ++ String.mk [bslC, 'u'] ++ hex4 (56320 + n % 1024)
    else String.mk [bslC, 'u'] ++ hex4 c.toNat
  else String.mk [c]

/-- JSON string literal rendering with escapes. -/
def strDump (s : String) : String :=
  String.mk [quoteC] ++ String.join (s.data.map escChar) ++ String.mk [quoteC]

mutual

/-- Models json.dumps with separators=(",", ":"), the compact form
build_prompt uses for the rules and the state. -/
def dumpsC : Json → String
  | Json.null => "null"
  | Json.bool b => if b then "true" else "false"
  | Json.int n => toString n
  | Json.str s => strDump s
  | Json.arr xs => "[" ++ dumpsCList xs ++ "]"
  | Json.obj kvs => "\x7b" ++ dumpsCObj kvs ++ "\x7d"

/-- Comma-joined compact renderings of array elements. -/
def dumpsCList : List Json → String
  | [] => ""
  | [x] => dumpsC x
  | x :: y :: rest => dumpsC x ++ "," ++ dumpsCList (y :: rest)

/-- Comma-joined compact renderings of object members. -/
def dumpsCObj : List (String × Json) → String
  | [] => ""
  | [(k, v)] => strDump k ++ ":" ++ dumpsC v
  | (k, v) :: p :: rest => strDump k ++ ":" ++ dumpsC v ++ "," ++ dumpsCObj (p :: rest)

end

/-- Indentation of the given nesting level at two spaces per level. -/
def indentOf (lvl : Nat) : String := String.mk (List.replicate (2 * lvl) ' ')

mutual

/-- Models json.dumps with indent=2, the form build_prompt uses for
the recent history: containers break onto indented lines, empty
containers stay inline, members use ": " as key separator. -/
def dumpsI : Nat → Json → String
  | _, Json.null => "null"
  | _, Json.bool b => if b then "true" else "false"
  | _, Json.int n => toString n
  | _, Json.str s => strDump s
  | _, Json.arr [] => "[]"
  | lvl, Json.arr (x :: xs) =>
    "[\n" ++ dumpsIList (lvl + 1) (x :: xs) ++ "\n" ++ indentOf lvl ++ "]"
  | _, Json.obj [] => "\x7b\x7d"
  | lvl, Json.obj (p :: ps) =>
    "\x7b\n" ++ dumpsIObj (lvl + 1) (p :: ps) ++ "\n" ++ indentOf lvl ++ "\x7d"

/-- Indented array elements, one per line, comma separated. -/
def dumpsIList : Nat → List Json → String
  | _, [] => ""
  | lvl, [x] => indentOf lvl ++ dumpsI lvl x
  | lvl, x :: y :: rest => indentOf lvl ++ dumpsI lvl x ++ ",\n" ++ dumpsIList lvl (y :: rest)

/-- Indented object members, one per line, comma separated. -/
def dumpsIObj : Nat → List (String × Json) → String
  | _, [] => ""
  | lvl, [(k, v)] => indentOf lvl ++ strDump k ++ ": " ++ dumpsI lvl v
  | lvl, (k, v) :: p :: rest =>
    indentOf lvl ++ strDump k ++ ": " ++ dumpsI lvl v ++ ",\n" ++ dumpsIObj lvl (p :: rest)

end

/-- Last n elements of a list, as the Python slice history[-n:]. -/
def lastN {α : Type} (n : Nat) (l : List α) : List α := l.drop (l.length - n)

/-- The in-memory history window size MAX_HISTORY. -/
def MAX_HISTORY : Nat := 6

/-- The part of the prompt before the player command: preamble text,
compact rules, compact state, pretty recent history. -/
def promptPre (gmText : String) (rules : Json) (st : GameState) (history : List Json) : String :=
  gmText ++ "\n\n" ++
  ("RULES_JSON:" ++ dumpsC rules ++ "\n" ++
  ("CURRENT_STATE:" ++ dumpsC (stateToJson st) ++ "\n" ++
  ("RECENT_HISTORY:" ++ dumpsI 0 (Json.arr (lastN MAX_HISTORY history)) ++ "\n")))

/-- The trailing instruction of the prompt. -/
def promptTail : String :=
  "INSTRUCTIONS: Reply strictly as JSON with keys " ++ String.mk [Char.ofNat 39] ++
  "narration" ++ String.mk [Char.ofNat 39] ++ " and " ++ String.mk [Char.ofNat 39] ++
  "state_change" ++ String.mk [Char.ofNat 39] ++ " "

/-- Models GameEngine.build_prompt: the concatenation of the preamble
file, the serialized rules, state and recent history, the player
command line, and the trailing instruction. -/
def build_prompt (gmText : String) (rules : Json) (st : GameState) (history : List Json)
    (player_cmd : String) : String :=
  promptPre gmText rules st history ++
  ("PLAYER_COMMAND:" ++ player_cmd ++ ("\n\n" ++ promptTail))

/-- The prompt handle_command sends to the backend for a command: the
command is lowercased, the built-ins are intercepted (none), and any
other command is passed to build_prompt as is. -/
def handle_command_prompt (gmText : String) (rules : Json) (st : GameState)
    (history : List Json) (cmd : String) : Option String :=
  let c := pyLower cmd
  if isBuiltin c then none else some (build_prompt gmText rules st history c)

/-- Substring test used to state properties of the built prompt. -/
def containsL : List Char → List Char → Bool
  | [], needle => needle.isEmpty
  | c :: rest, needle => startsAux needle (c :: rest) || containsL rest needle

/-- Whether the second string occurs as a contiguous substring of the
first. -/
def strContains (hay needle : String) : Bool := containsL hay.data needle.data

/-- The derived hp_zero signal: whether flags carries hp_zero = true. -/
def hpZero (s : GameState) : Bool := flagsGet (s.flags.getD []) "hp_zero"

/-- An atom is unknown when it carries none of the five recognized
kind markers. -/
def unknownAtom (a : String) : Bool :=
  !(strStarts a "move_to:" || strStarts a "add_item:" || strStarts a "remove_item:" ||
    strStarts a "set_flag:" || strStarts a "hp_delta:")

/-- Whether no unrecognized key of the state collides with a
recognized one; save files written by the program satisfy this. -/
def extraOk (s : GameState) : Bool :=
  s.extra.all (fun kv => !(recognizedKey kv.1))

/-- A backend reply wrapped in prose, used as a concrete test input. -/
def gmInput1 : String :=
  "Sure! \x7b\"narration\":\"You enter.\",\"state_change\":[\"move_to:cave\"]\x7d Good luck."

/-- A concrete mid-game state used as a test input. -/
def stC : GameState :=
  { location := some "cave", inventory := some ["sword", "map"],
    flags := some [("met_guide", true)], hp := some 7, turns := some 3,
    extra := [("quest", Json.str "amulet")] }

theorem applyAtom_turns (s : GameState) (a : String) : (applyAtom s a).turns = s.turns := by
  unfold applyAtom
  dsimp only
  repeat' split
  all_goals rfl

theorem foldl_applyAtom_turns (l : List String) (s : GameState) :
    (List.foldl applyAtom s l).turns = s.turns := by
  induction l generalizing s with
  | nil => rfl
  | cons a l ih => rw [List.foldl_cons, ih, applyAtom_turns]

theorem lookupStr_upsert_self {α : Type} (l : List (String × α)) (k : String) (v : α) :
    lookupStr (upsert l k v) k = some v := by
  induction l with
  | nil => simp [upsert, lookupStr]
  | cons kv rest ih =>
    obtain ⟨k0, v0⟩ := kv
    by_cases h : k0 = k
    · simp [upsert, lookupStr, h]
    · simp [upsert, lookupStr, h, ih]

theorem lookupStr_upsert_ne {α : Type} (l : List (String × α)) (k k' : String) (v : α)
    (h : k ≠ k') : lookupStr (upsert l k v) k' = lookupStr l k' := by
  induction l with
  | nil => simp [upsert, lookupStr, h]
  | cons kv rest ih =>
    obtain ⟨k0, v0⟩ := kv
    by_cases h0 : k0 = k
    · subst h0
      simp [upsert, lookupStr, h]
    · simp [upsert, lookupStr, h0, ih]

theorem flagsGet_upsert_true_self (l : List (String × Bool)) (k : String) :
    flagsGet (upsert l k true) k = true := by
  simp [flagsGet, lookupStr_upsert_self]

theorem flagsGet_upsert_mono (l : List (String × Bool)) (k k' : String)
    (h : flagsGet l k' = true) : flagsGet (upsert l k true) k' = true := by
  by_cases hk : k = k'
  · subst hk; exact flagsGet_upsert_true_self l k
  · rw [flagsGet, lookupStr_upsert_ne l k k' true hk]; exact h

theorem applyAtom_hpZero (s : GameState) (a : String) (h : hpZero s = true) :
    hpZero (applyAtom s a) = true := by
  unfold applyAtom
  dsimp only
  repeat' split
  all_goals simp only [hpZero] at h ⊢
  all_goals first
    | exact h
    | exact flagsGet_upsert_mono _ _ _ h

theorem foldl_applyAtom_hpZero (l : List String) (s : GameState) (h : hpZero s = true) :
    hpZero (List.foldl applyAtom s l) = true := by
  induction l generalizing s with
  | nil => exact h
  | cons a l ih => exact ih _ (applyAtom_hpZero _ _ h)

theorem apply_state_changes_hpZero (s : GameState) (l : List String) (h : hpZero s = true) :
    hpZero (apply_state_changes s l) = true := by
  unfold apply_state_changes hpZero
  exact foldl_applyAtom_hpZero l s h

theorem lookupStr_eq_none {α : Type} (l : List (String × α)) (k : String)
    (h : ∀ kv ∈ l, kv.1 ≠ k) : lookupStr l k = none := by
  induction l with
  | nil => rfl
  | cons kv rest ih =>
    have h1 := h kv (by simp)
    simp only [lookupStr, beq_iff_eq, h1, if_false]
    exact ih (fun kv' hm => h kv' (by simp [hm]))

theorem lookupStr_extra (l : List (String × Json)) (k : String)
    (hk : recognizedKey k = true) (h : ∀ kv ∈ l, recognizedKey kv.1 = false) :
    lookupStr l k = none := by
  refine lookupStr_eq_none l k (fun kv hm heq => ?_)
  have h2 := h kv hm
  rw [heq, hk] at h2
  exact Bool.noConfusion h2

theorem strList_map (xs : List String) : strList (xs.map Json.str) = some xs := by
  induction xs with
  | nil => rfl
  | cons x xs ih => simp [strList, ih]

theorem boolPairs_map (fs : List (String × Bool)) :
    boolPairs (fs.map (fun kv => (kv.1, Json.bool kv.2))) = some fs := by
  induction fs with
  | nil => rfl
  | cons kv rest ih => simp [boolPairs, ih]

theorem filter_extra (l : List (String × Json)) (h : ∀ kv ∈ l, recognizedKey kv.1 = false) :
    l.filter (fun kv => !(recognizedKey kv.1)) = l := by
  induction l with
  | nil => rfl
  | cons kv rest ih =>
    have h1 := h kv (by simp)
    simp [List.filter_cons, h1, ih (fun kv' hm => h kv' (by simp [hm]))]

theorem stateToJson_roundtrip (s : GameState) (h : extraOk s = true) :
    jsonToState (stateToJson s) = s := by
  obtain ⟨loc, inv, fl, hp, tr, ex⟩ := s
  simp only [extraOk, List.all_eq_true, Bool.not_eq_true'] at h
  have hex : ∀ kv ∈ ex, recognizedKey kv.1 = false := h
  cases loc <;> cases inv <;> cases fl <;> cases hp <;> cases tr <;>
    simp [stateToJson, jsonToState, lookupStr, asStr, asInt, asStrList, asFlags,
      strList_map, boolPairs_map, List.filter_cons,
      lookupStr_extra ex "location" (by decide) hex,
      lookupStr_extra ex "inventory" (by decide) hex,
      lookupStr_extra ex "flags" (by decide) hex,
      lookupStr_extra ex "hp" (by decide) hex,
      lookupStr_extra ex "turns" (by decide) hex,
      filter_extra ex hex, recognizedKey]
  all_goals
    intro a b hm
  all_goals
    have h2 := hex (a, b) hm
  all_goals
    simp only [recognizedKey, Bool.or_eq_false_iff, beq_eq_false_iff_ne, ne_eq] at h2
  all_goals
    tauto

theorem applyAtom_move_to (s : GameState) (p : String) :
    applyAtom s ("move_to:" ++ p) = { s with location := some (pyStrip p) } := rfl

theorem applyAtom_add_item (s : GameState) (p : String) :
    applyAtom s ("add_item:" ++ p) =
      (let item := pyStrip p
       let inv := s.inventory.getD []
       if item ∈ inv then { s with inventory := some inv }
       else { s with inventory := some (inv ++ [item]) }) := rfl

theorem applyAtom_remove_item (s : GameState) (p : String) :
    applyAtom s ("remove_item:" ++ p) =
      (let item := pyStrip p
       match s.inventory with
       | some inv => if item ∈ inv then { s with inventory := some (inv.erase item) } else s
       | none => s) := rfl

theorem applyAtom_set_flag (s : GameState) (p : String) :
    applyAtom s ("set_flag:" ++ p) =
      { s with flags := some (upsert (s.flags.getD []) (pyStrip p) true) } := rfl

theorem applyAtom_hp_delta (s : GameState) (p : String) :
    applyAtom s ("hp_delta:" ++ p) =
      (let delta := (parseIntPy p).getD 0
       let hp1 := s.hp.getD 0 + delta
       let s1 : GameState := { s with hp := some hp1 }
       if hp1 ≤ 0 then { s1 with flags := some (upsert (s1.flags.getD []) "hp_zero" true) }
       else s1) := rfl

theorem applyAtom_unknown (s : GameState) (a : String) (h : unknownAtom a = true) :
    applyAtom s a = s := by
  simp only [unknownAtom, Bool.not_eq_eq_eq_not, Bool.not_true, Bool.or_eq_false_iff] at h
  obtain ⟨⟨⟨⟨h1, h2⟩, h3⟩, h4⟩, h5⟩ := h
  simp [applyAtom, h1, h2, h3, h4, h5]

theorem pyRfind_ge (s : String) (c : Char) : -1 ≤ pyRfind s c := by
  unfold pyRfind
  split
  · omega
  · exact le_refl _

/-- C1 (amended): safe_json_extract is total (never raises) and, when
both parse attempts fail — the whole text and the first-brace to
last-brace substring — it returns the fallback object; but a
successful parse is returned as-is, with no check that it is an object
with the two keys narration and state_change. -/
theorem claim_C1 (text : String) :
    (jsonLoads text = none → jsonLoads (braceSlice text) = none →
      safe_json_extract text = fallbackJson) ∧
    (safe_json_extract text ≠ fallbackJson →
      jsonLoads text = some (safe_json_extract text) ∨
      jsonLoads (braceSlice text) = some (safe_json_extract text)) := by
  constructor
  · intro h1 h2
    unfold braceSlice at h2
    simp only [safe_json_extract, h1, h2]
    split <;> rfl
  · intro hne
    cases h1 : jsonLoads text with
    | some j =>
      left
      simp only [safe_json_extract, h1]
    | none =>
      right
      unfold braceSlice
      cases h2 : jsonLoads (pySlice text (pyFind text lbraceC) (pyRfind text rbraceC + 1)) with
      | some j =>
        by_cases hc : pyFind text lbraceC ≠ -1 ∧ pyRfind text rbraceC + 1 ≠ -1
        · have hval : safe_json_extract text = j := by
            simp only [safe_json_extract, h1]
            rw [if_pos hc, h2]
          rw [hval]
        · exfalso
          apply hne
          simp only [safe_json_extract, h1]
          rw [if_neg hc]
      | none =>
        exfalso
        apply hne
        simp only [safe_json_extract, h1, h2]
        split <;> rfl

/-- Witness for C1: on an input with no JSON at all both attempts fail
and the fallback object is returned. -/
theorem claim_C1_witness : safe_json_extract "not json at all" = fallbackJson :=
  (claim_C1 "not json at all").1 rfl rfl

/-- Counterexample to C1 as stated: the input consisting of an empty
JSON object parses successfully and is returned as-is, an object with
neither a narration nor a state_change key, and not the fallback
object; the claimed shape guarantee does not hold. -/
theorem claim_C1_counterexample :
    safe_json_extract "\x7b\x7d" = Json.obj [] ∧ Json.obj [] ≠ fallbackJson := by
  refine ⟨rfl, ?_⟩
  intro h
  simp [fallbackJson] at h

/-- C4: one call to apply_state_changes increments turns by exactly
one, for every batch, whatever its atoms, reading an absent turns key
as zero. -/
theorem claim_C4 (s : GameState) (changes : List String) :
    (apply_state_changes s changes).turns = some (s.turns.getD 0 + 1) := by
  unfold apply_state_changes
  simp [foldl_applyAtom_turns]

/-- C6: apply_state_changes is total, and an atom carrying none of the
five recognized kind markers leaves the state unchanged; a batch of
only such atoms changes nothing but the turn counter. -/
theorem claim_C6 (s : GameState) (atoms : List String)
    (h : ∀ a ∈ atoms, unknownAtom a = true) :
    (∀ a ∈ atoms, applyAtom s a = s) ∧
    apply_state_changes s atoms = { s with turns := some (s.turns.getD 0 + 1) } := by
  refine ⟨fun a hm => applyAtom_unknown s a (h a hm), ?_⟩
  unfold apply_state_changes
  have hfold : List.foldl applyAtom s atoms = s := by
    induction atoms with
    | nil => rfl
    | cons a l ih =>
      rw [List.foldl_cons, applyAtom_unknown s a (h a (by simp))]
      exact ih (fun a' hm => h a' (by simp [hm]))
  rw [hfold]

/-- Witness for C6: two unknown atoms leave everything but turns
unchanged. -/
theorem claim_C6_witness :
    apply_state_changes emptyState ["teleport:home", "xyzzy"] =
      { emptyState with turns := some (emptyState.turns.getD 0 + 1) } :=
  (claim_C6 emptyState ["teleport:home", "xyzzy"] (by decide)).2

/-- C3: an hp_delta atom adds its parsed payload to hp; an unparsable
payload contributes zero and the batch continues; and whenever the
resulting hp is at most zero the hp_zero flag is set and stays set
through every later atom of any kind. -/
theorem claim_C3 (s : GameState) (p : String) (rest : List String) :
    (parseIntPy p = none → (applyAtom s ("hp_delta:" ++ p)).hp = some (s.hp.getD 0)) ∧
    (∀ n : Int, parseIntPy p = some n →
      (applyAtom s ("hp_delta:" ++ p)).hp = some (s.hp.getD 0 + n)) ∧
    (apply_state_changes s (("hp_delta:" ++ p) :: rest) =
      apply_state_changes (applyAtom s ("hp_delta:" ++ p)) rest) ∧
    (s.hp.getD 0 + (parseIntPy p).getD 0 ≤ 0 →
      hpZero (applyAtom s ("hp_delta:" ++ p)) = true ∧
      hpZero (apply_state_changes (applyAtom s ("hp_delta:" ++ p)) rest) = true) := by
  refine ⟨?_, ?_, rfl, ?_⟩
  · intro h
    rw [applyAtom_hp_delta]
    dsimp only
    split <;> simp [h]
  · intro n h
    rw [applyAtom_hp_delta]
    dsimp only
    split <;> simp [h]
  · intro h
    have h1 : hpZero (applyAtom s ("hp_delta:" ++ p)) = true := by
      rw [applyAtom_hp_delta]
      dsimp only
      rw [if_pos h]
      simp only [hpZero, Option.getD_some]
      exact flagsGet_upsert_true_self _ _
    exact ⟨h1, apply_state_changes_hpZero _ rest h1⟩

/-- Witness for C3: a -5 delta on a state with no hp key drives hp to
-5, sets hp_zero, and the flag survives a later +10 delta and a
set_flag atom. -/
theorem claim_C3_witness :
    hpZero (applyAtom emptyState ("hp_delta:" ++ "-5")) = true ∧
    hpZero (apply_state_changes (applyAtom emptyState ("hp_delta:" ++ "-5"))
      ["hp_delta:10", "set_flag:blessed"]) = true :=
  (claim_C3 emptyState "-5" ["hp_delta:10", "set_flag:blessed"]).2.2.2 (by decide)

/-- C2: check_end_conditions tests WIN, then LOSE, then the turn
bound, returning the first match: an empty WIN_ALL_FLAGS list wins
immediately, before LOSE or TURNS is even considered; the win message
appears exactly when every listed flag is present and true; a lose or
turn-limit result implies every earlier condition failed; and an
absent MAX_TURNS never produces the turn-limit result. -/
theorem claim_C2 (endc : EndConditions) (s : GameState) :
    (endc.winAllFlags = [] → check_end_conditions endc s = some "You won!") ∧
    (check_end_conditions endc s = some "You won!" ↔
      ∀ f ∈ endc.winAllFlags, flagsGet (s.flags.getD []) f = true) ∧
    (check_end_conditions endc s = some " You lost!" →
      (∃ f ∈ endc.loseAnyFlags, flagsGet (s.flags.getD []) f = true) ∧
      ¬(∀ f ∈ endc.winAllFlags, flagsGet (s.flags.getD []) f = true)) ∧
    (endc.maxTurns = none → check_end_conditions endc s ≠ some " Max turns exceeded!") ∧
    (∀ m : Int, endc.maxTurns = some m →
      check_end_conditions endc s = some " Max turns exceeded!" →
      s.turns.getD 0 ≥ m ∧
      ¬(∀ f ∈ endc.winAllFlags, flagsGet (s.flags.getD []) f = true) ∧
      ¬(∃ f ∈ endc.loseAnyFlags, flagsGet (s.flags.getD []) f = true)) := by
  unfold check_end_conditions
  dsimp only
  by_cases hwin : endc.winAllFlags.all (fun f => flagsGet (s.flags.getD []) f) = true
  · rw [if_pos hwin]
    simp only [List.all_eq_true] at hwin
    refine ⟨fun _ => rfl, ⟨fun _ => hwin, fun _ => rfl⟩, ?_, ?_, ?_⟩
    · intro h
      exact absurd h (by simp)
    · intro _ h
      exact absurd h (by simp)
    · intro m _ h
      exact absurd h (by simp)
  · rw [if_neg hwin]
    simp only [List.all_eq_true] at hwin
    by_cases hlose : endc.loseAnyFlags.any (fun f => flagsGet (s.flags.getD []) f) = true
    · rw [if_pos hlose]
      simp only [List.any_eq_true] at hlose
      refine ⟨?_, ?_, fun _ => ⟨hlose, hwin⟩, ?_, ?_⟩
      · intro he
        exact absurd (fun f hf => absurd (he ▸ hf) (by simp)) hwin
      · constructor
        · intro h
          exact absurd h (by simp)
        · intro h
          exact absurd h hwin
      · intro _ h
        exact absurd h (by simp)
      · intro m _ h
        exact absurd h (by simp)
    · rw [if_neg hlose]
      simp only [List.any_eq_true] at hlose
      refine ⟨?_, ?_, ?_, ?_, ?_⟩
      · intro he
        exact absurd (fun f hf => absurd (he ▸ hf) (by simp)) hwin
      · constructor
        · intro h
          split at h
          · exact absurd h (by simp)
          · exact absurd h (by simp)
        · intro h
          exact absurd h hwin
      · intro h
        split at h
        · exact absurd h (by simp)
        · exact absurd h (by simp)
      · intro hm
        rw [hm]
        simp
      · intro m hm h
        rw [hm] at h
        by_cases ht : s.turns.getD 0 ≥ m
        · exact ⟨ht, hwin, hlose⟩
        · rw [if_neg (by simpa using ht)] at h
          exact absurd h (by simp)

/-- Witness for C2: with an empty win list the evaluator reports the
win even though a lose flag is set and the turn bound is exceeded. -/
theorem claim_C2_witness :
    check_end_conditions { winAllFlags := [], loseAnyFlags := ["hp_zero"], maxTurns := some 0 }
      { emptyState with flags := some [("hp_zero", true)], turns := some 9 } = some "You won!" :=
  (claim_C2 { winAllFlags := [], loseAnyFlags := ["hp_zero"], maxTurns := some 0 }
    { emptyState with flags := some [("hp_zero", true)], turns := some 9 }).1 rfl

/-- C5 (amended): a non-built-in command is forwarded to the backend
prompt with no validation, but only after being lowercased: the built
prompt is exactly the fixed surrounding text with the line
PLAYER_COMMAND: followed by the lowercased command, which appears
verbatim and nowhere else depends on the command. -/
theorem claim_C5 (gmText : String) (rules : Json) (st : GameState) (history : List Json)
    (cmd : String) (h : isBuiltin (pyLower cmd) = false) :
    handle_command_prompt gmText rules st history cmd =
      some (promptPre gmText rules st history ++
        ("PLAYER_COMMAND:" ++ pyLower cmd ++ ("\n\n" ++ promptTail))) := by
  unfold handle_command_prompt build_prompt
  simp [h]

/-- Witness for C5: a concrete mixed-case command is embedded in
lowercased form. -/
theorem claim_C5_witness :
    handle_command_prompt "GM" (Json.obj []) emptyState [] "Go North" =
      some (promptPre "GM" (Json.obj []) emptyState [] ++
        ("PLAYER_COMMAND:" ++ pyLower "Go North" ++ ("\n\n" ++ promptTail))) :=
  claim_C5 "GM" (Json.obj []) emptyState [] "Go North" (by decide)

/-- Counterexample to C5 as stated: the player enters Attack, but the
built prompt does not contain the string PLAYER_COMMAND:Attack — it
contains PLAYER_COMMAND:attack, because handle_command lowercases the
command before forwarding it; forwarding is not verbatim. -/
theorem claim_C5_counterexample :
    strContains ((handle_command_prompt "GM" (Json.obj []) emptyState [] "Attack").getD "")
      "PLAYER_COMMAND:Attack" = false ∧
    strContains ((handle_command_prompt "GM" (Json.obj []) emptyState [] "Attack").getD "")
      "PLAYER_COMMAND:attack" = true := by decide

theorem applyAtom_add_inv (s : GameState) (p : String) :
    (applyAtom s ("add_item:" ++ p)).inventory =
      some (if pyStrip p ∈ s.inventory.getD [] then s.inventory.getD []
            else s.inventory.getD [] ++ [pyStrip p]) := by
  rw [applyAtom_add_item]
  dsimp only
  split <;> rfl

/-- C7: add_item is idempotent — after adding the same item twice,
within one batch or across two successive batches, the inventory
contains it exactly once, provided it held at most one copy before;
and a new item is appended at the end while a present item leaves the
inventory list unchanged, preserving first-encounter order. -/
theorem claim_C7 (s : GameState) (p : String)
    (h : (s.inventory.getD []).count (pyStrip p) ≤ 1) :
    ((apply_state_changes s ["add_item:" ++ p, "add_item:" ++ p]).inventory.getD []).count
        (pyStrip p) = 1 ∧
    ((apply_state_changes (apply_state_changes s ["add_item:" ++ p])
        ["add_item:" ++ p]).inventory.getD []).count (pyStrip p) = 1 ∧
    (pyStrip p ∉ s.inventory.getD [] →
      (applyAtom s ("add_item:" ++ p)).inventory = some (s.inventory.getD [] ++ [pyStrip p])) ∧
    (pyStrip p ∈ s.inventory.getD [] →
      (applyAtom s ("add_item:" ++ p)).inventory = some (s.inventory.getD [])) := by
  have hcount2 : ∀ t : GameState, (t.inventory.getD []).count (pyStrip p) ≤ 1 →
      ((applyAtom (applyAtom t ("add_item:" ++ p)) ("add_item:" ++ p)).inventory.getD []).count
        (pyStrip p) = 1 := by
    intro t ht
    by_cases hmem : pyStrip p ∈ t.inventory.getD []
    · have h1 : (applyAtom t ("add_item:" ++ p)).inventory = some (t.inventory.getD []) := by
        rw [applyAtom_add_inv, if_pos hmem]
      have hc1 : 0 < (t.inventory.getD []).count (pyStrip p) :=
        List.count_pos_iff.mpr hmem
      rw [applyAtom_add_inv, h1]
      simp only [Option.getD_some, if_pos hmem]
      omega
    · have h1 : (applyAtom t ("add_item:" ++ p)).inventory =
          some (t.inventory.getD [] ++ [pyStrip p]) := by
        rw [applyAtom_add_inv, if_neg hmem]
      have hc0 : (t.inventory.getD []).count (pyStrip p) = 0 :=
        List.count_eq_zero_of_not_mem hmem
      rw [applyAtom_add_inv, h1]
      have hmem2 : pyStrip p ∈ t.inventory.getD [] ++ [pyStrip p] := by simp
      simp only [Option.getD_some, if_pos hmem2]
      simp [List.count_append, hc0]
  refine ⟨?_, ?_, ?_, ?_⟩
  · exact hcount2 s h
  · have e1 : (apply_state_changes s ["add_item:" ++ p]).inventory =
        (applyAtom s ("add_item:" ++ p)).inventory := rfl
    have e2 : (apply_state_changes (apply_state_changes s ["add_item:" ++ p])
        ["add_item:" ++ p]).inventory =
        (applyAtom (apply_state_changes s ["add_item:" ++ p]) ("add_item:" ++ p)).inventory := rfl
    rw [e2]
    by_cases hmem : pyStrip p ∈ (apply_state_changes s ["add_item:" ++ p]).inventory.getD []
    · rw [applyAtom_add_inv, if_pos hmem]
      rw [e1] at hmem ⊢
      by_cases hm0 : pyStrip p ∈ s.inventory.getD []
      · rw [applyAtom_add_inv, if_pos hm0]
        simp only [Option.getD_some]
        have hc1 : 0 < (s.inventory.getD []).count (pyStrip p) :=
          List.count_pos_iff.mpr hm0
        omega
      · rw [applyAtom_add_inv, if_neg hm0]
        have hc0 : (s.inventory.getD []).count (pyStrip p) = 0 :=
          List.count_eq_zero_of_not_mem hm0
        simp [List.count_append, hc0]
    · exfalso
      apply hmem
      rw [e1]
      by_cases hm0 : pyStrip p ∈ s.inventory.getD []
      · rw [applyAtom_add_inv, if_pos hm0]
        simpa using hm0
      · rw [applyAtom_add_inv, if_neg hm0]
        simp
  · intro hmem
    rw [applyAtom_add_inv, if_neg hmem]
  · intro hmem
    rw [applyAtom_add_inv, if_pos hmem]

/-- Witness for C7: adding sword twice to an empty inventory in one
batch leaves exactly one sword. -/
theorem claim_C7_witness :
    (((apply_state_changes emptyState
        ["add_item:" ++ "sword", "add_item:" ++ "sword"]).inventory.getD []).count
      (pyStrip "sword")) = 1 :=
  (claim_C7 emptyState "sword" (by decide)).1

theorem applyAtom_remove_noop (s : GameState) (p : String)
    (h : pyStrip p ∉ s.inventory.getD []) :
    applyAtom s ("remove_item:" ++ p) = s := by
  rw [applyAtom_remove_item]
  dsimp only
  cases hinv : s.inventory with
  | none => rfl
  | some inv =>
    rw [hinv] at h
    simp only [Option.getD_some] at h
    dsimp only
    rw [if_neg h]

theorem applyAtom_remove_mem (s : GameState) (p : String) (inv : List String)
    (hs : s.inventory = some inv) (h : pyStrip p ∈ inv) :
    (applyAtom s ("remove_item:" ++ p)).inventory = some (inv.erase (pyStrip p)) := by
  rw [applyAtom_remove_item]
  dsimp only
  simp only [hs]
  rw [if_pos h]

/-- C8: atom order matters for the inventory: starting without the
item, remove then add leaves the item present (the remove is a no-op
and the add appends it), while add then remove leaves the inventory as
it started, without the item; remove_item erases exactly the first
occurrence when the item is present and is a strict no-op
otherwise. -/
theorem claim_C8 (s : GameState) (p : String) :
    (pyStrip p ∉ s.inventory.getD [] →
      (apply_state_changes s ["remove_item:" ++ p, "add_item:" ++ p]).inventory.getD [] =
        s.inventory.getD [] ++ [pyStrip p] ∧
      pyStrip p ∈
        (apply_state_changes s ["remove_item:" ++ p, "add_item:" ++ p]).inventory.getD [] ∧
      (apply_state_changes s ["add_item:" ++ p, "remove_item:" ++ p]).inventory.getD [] =
        s.inventory.getD [] ∧
      pyStrip p ∉
        (apply_state_changes s ["add_item:" ++ p, "remove_item:" ++ p]).inventory.getD []) ∧
    (∀ inv : List String, s.inventory = some inv → pyStrip p ∈ inv →
      (applyAtom s ("remove_item:" ++ p)).inventory = some (inv.erase (pyStrip p))) ∧
    (pyStrip p ∉ s.inventory.getD [] → applyAtom s ("remove_item:" ++ p) = s) := by
  refine ⟨?_, fun inv hs h => applyAtom_remove_mem s p inv hs h,
    fun h => applyAtom_remove_noop s p h⟩
  intro hmem
  have e1 : (apply_state_changes s ["remove_item:" ++ p, "add_item:" ++ p]).inventory =
      (applyAtom (applyAtom s ("remove_item:" ++ p)) ("add_item:" ++ p)).inventory := rfl
  have e2 : (apply_state_changes s ["add_item:" ++ p, "remove_item:" ++ p]).inventory =
      (applyAtom (applyAtom s ("add_item:" ++ p)) ("remove_item:" ++ p)).inventory := rfl
  have hra : (applyAtom (applyAtom s ("remove_item:" ++ p)) ("add_item:" ++ p)).inventory =
      some (s.inventory.getD [] ++ [pyStrip p]) := by
    rw [applyAtom_remove_noop s p hmem, applyAtom_add_inv, if_neg hmem]
  have hadd : (applyAtom s ("add_item:" ++ p)).inventory =
      some (s.inventory.getD [] ++ [pyStrip p]) := by
    rw [applyAtom_add_inv, if_neg hmem]
  have har : (applyAtom (applyAtom s ("add_item:" ++ p)) ("remove_item:" ++ p)).inventory =
      some (s.inventory.getD []) := by
    rw [applyAtom_remove_mem (applyAtom s ("add_item:" ++ p)) p
      (s.inventory.getD [] ++ [pyStrip p]) hadd (by simp)]
    rw [List.erase_append_right _ hmem, List.erase_cons_head]
    simp
  refine ⟨?_, ?_, ?_, ?_⟩
  · rw [e1, hra]
    rfl
  · rw [e1, hra]
    simp
  · rw [e2, har]
    rfl
  · rw [e2, har]
    simpa using hmem

/-- Witness for C8: on an empty inventory, remove-then-add leaves
sword present, add-then-remove leaves it absent. -/
theorem claim_C8_witness :
    pyStrip "sword" ∈
      (apply_state_changes emptyState
        ["remove_item:" ++ "sword", "add_item:" ++ "sword"]).inventory.getD [] ∧
    pyStrip "sword" ∉
      (apply_state_changes emptyState
        ["add_item:" ++ "sword", "remove_item:" ++ "sword"]).inventory.getD [] :=
  ⟨(((claim_C8 emptyState "sword").1 (by decide)).2).1,
   (((claim_C8 emptyState "sword").1 (by decide)).2).2.2⟩

/-- C9: the save built-in followed by the load built-in restores a
state identical to the one saved — every key, every value, the
inventory order — provided no unrecognized key shadows a recognized
one (states written by the program satisfy this); and load replaces
the state wholesale from the save file, ignoring the current state. -/
theorem claim_C9 (st : GameState) (sf : Option Json) (h : extraOk st = true) :
    ((handle_builtin (handle_builtin st sf "save").1 (handle_builtin st sf "save").2 "load").1
      = st) ∧
    (∀ (j : Json) (st2 : GameState), (handle_builtin st2 (some j) "load").1 = jsonToState j) := by
  exact ⟨stateToJson_roundtrip st h, fun j st2 => rfl⟩

/-- Witness for C9: a concrete mid-game state, with an unlisted extra
key, survives the save-load round trip unchanged. -/
theorem claim_C9_witness :
    (handle_builtin (handle_builtin stC none "save").1 (handle_builtin stC none "save").2
      "load").1 = stC :=
  (claim_C9 stC none (by decide)).1

/-- C10: on a reply wrapped in prose the parser retries the substring
from the first opening brace to the last closing brace inclusive and
extracts the embedded object, whose state_change moves the location to
cave from any state; pure prose yields the fallback object, whose
state_change list is empty; and in general a failed whole-string parse
followed by a successful brace-substring parse returns the embedded
value. -/
theorem claim_C10 :
    safe_json_extract gmInput1 =
      Json.obj [("narration", Json.str "You enter."),
                ("state_change", Json.arr [Json.str "move_to:cave"])] ∧
    (∀ s : GameState,
      (apply_state_changes s (getStateChange (safe_json_extract gmInput1))).location =
        some "cave") ∧
    safe_json_extract "not json at all" = fallbackJson ∧
    getStateChange fallbackJson = [] ∧
    (∀ (text : String) (j : Json), jsonLoads text = none → pyFind text lbraceC ≠ -1 →
      jsonLoads (braceSlice text) = some j → safe_json_extract text = j) := by
  refine ⟨rfl, fun s => rfl, rfl, rfl, ?_⟩
  intro text j h1 h2 h3
  have hstop : pyRfind text rbraceC + 1 ≠ -1 := by
    have := pyRfind_ge text rbraceC
    omega
  unfold braceSlice at h3
  simp only [safe_json_extract, h1]
  rw [if_pos ⟨h2, hstop⟩, h3]

/-- Witness for C10: the general brace-substring recovery applied to
the concrete prose-wrapped reply. -/
theorem claim_C10_witness :
    safe_json_extract gmInput1 =
      Json.obj [("narration", Json.str "You enter."),
                ("state_change", Json.arr [Json.str "move_to:cave"])] :=
  claim_C10.2.2.2.2 gmInput1
    (Json.obj [("narration", Json.str "You enter."),
               ("state_change", Json.arr [Json.str "move_to:cave"])]) rfl (by decide) rfl
